import Mathlib

/-!
Verification development for the charged-particle simulation core
(`src/konstanten.py`, `src/teilchen.py`, `src/kraefte.py`,
`src/integrator.py`, `src/box.py`).

The Python code is shallowly embedded over the real numbers: float
arithmetic is modelled by exact real arithmetic, NumPy 4-vectors by the
structure `Vec4`, particle objects by the structure `Teilchen`, and the
in-place mutation of particle states by explicit state passing (every
function that mutates the particle list returns the updated list).
-/

namespace Datpro

noncomputable section

/-! ### Constants (`src/konstanten.py`) -/

/-- `MASSE = 1.0` (konstanten.py line 15). -/
def MASSE : ℝ := 1

/-- `LADUNG = 50.0` (konstanten.py line 16). -/
def LADUNG : ℝ := 50

/-- `GRAVITATION = -10.0` (konstanten.py line 19). -/
def GRAVITATION : ℝ := -10

/-- `EPSILON = 1e-10` (konstanten.py line 45). -/
def EPSILON : ℝ := 1e-10

/-- `MAX_KOLLISIONS_ITERATIONEN = 10` (konstanten.py line 50). -/
def MAX_KOLLISIONS_ITERATIONEN : ℕ := 10

/-- The local constant `min_abstand = 1e-6` (the soft-core radius) used in
`berechne_coulombkraft_zwischen` and `berechne_potentielle_energie_coulomb`
(kraefte.py lines 58 and 176). -/
def MIN_ABSTAND : ℝ := 1e-6

/-! ### The 4-component state vector `[x, y, vx, vy]` -/

/-- A NumPy state vector `[x, y, vx, vy]` (teilchen.py line 59). -/
@[ext]
structure Vec4 where
  x : ℝ
  y : ℝ
  vx : ℝ
  vy : ℝ

instance : Zero Vec4 := ⟨⟨0, 0, 0, 0⟩⟩

instance : Add Vec4 := ⟨fun a b => ⟨a.x + b.x, a.y + b.y, a.vx + b.vx, a.vy + b.vy⟩⟩

instance : Neg Vec4 := ⟨fun a => ⟨-a.x, -a.y, -a.vx, -a.vy⟩⟩

instance : Sub Vec4 := ⟨fun a b => a + -b⟩

instance : SMul ℝ Vec4 := ⟨fun c a => ⟨c * a.x, c * a.y, c * a.vx, c * a.vy⟩⟩

/-! ### Particles (`src/teilchen.py`)

The diagnostic fields `teilchen_id`, `anfangszustand` and
`letzte_kollisionszeit` are never read by the force model, the integrator
or the collision handler; they are omitted from the embedding.  The
mutable `kollisionszaehler` is kept because `Box.behandle_wandkollision_exakt`
increments it. -/

/-- A particle (teilchen.py, class `Teilchen`). -/
@[ext]
structure Teilchen where
  masse : ℝ
  ladung : ℝ
  zustand : Vec4
  kollisionszaehler : ℕ

instance : Inhabited Teilchen := ⟨⟨MASSE, LADUNG, 0, 0⟩⟩

/-- Position accessor `[x, y]` (teilchen.py lines 68-73). -/
def Teilchen.position (t : Teilchen) : ℝ × ℝ := (t.zustand.x, t.zustand.y)

/-- Velocity accessor `[vx, vy]` (teilchen.py lines 82-87). -/
def Teilchen.geschwindigkeit (t : Teilchen) : ℝ × ℝ := (t.zustand.vx, t.zustand.vy)

/-- `Teilchen.aktualisiere_zustand` (teilchen.py lines 166-177).  The
length-4 check cannot fail in the embedding because `Vec4` always has
exactly four components. -/
def Teilchen.aktualisiere_zustand (t : Teilchen) (neu : Vec4) : Teilchen :=
  { t with zustand := neu }

/-- Everything of a particle except its state vector (used to express that a
computation only ever mutates state vectors). -/
def Teilchen.rumpf (t : Teilchen) : ℝ × ℝ × ℕ := (t.masse, t.ladung, t.kollisionszaehler)

/-- `Teilchen.__init__` (teilchen.py lines 31-66): stores the given mass and
charge (falling back to the shared constants when `None` is passed) and the
state vector.  The constructor performs no validation of the mass or charge;
it is a total function and always returns a particle. -/
def teilchen_init (x y vx vy : ℝ) (masse ladung : Option ℝ) : Teilchen :=
  { masse := masse.getD MASSE
    ladung := ladung.getD LADUNG
    zustand := ⟨x, y, vx, vy⟩
    kollisionszaehler := 0 }

/-! ### The box (`src/box.py`) -/

/-- The reflecting box (box.py, class `Box`).  `kollisions_historie` is
write-only diagnostics and is omitted. -/
structure Box where
  x_min : ℝ
  x_max : ℝ
  y_min : ℝ
  y_max : ℝ
  gesamt_kollisionen : ℕ

/-- `Box.__init__` (box.py lines 27-46): computes `breite`/`hoehe` and raises
`ValueError` when either is non-positive; otherwise the counter starts at 0. -/
def box_init (x_min x_max y_min y_max : ℝ) : Except String Box :=
  let breite := x_max - x_min
  let hoehe := y_max - y_min
  if breite ≤ 0 ∨ hoehe ≤ 0 then
    Except.error "Boxdimensionen muessen positiv sein"
  else
    Except.ok { x_min := x_min, x_max := x_max, y_min := y_min, y_max := y_max
                gesamt_kollisionen := 0 }

/-- `Box.ist_innerhalb` (box.py lines 48-60): bounds-inclusive membership. -/
def Box.ist_innerhalb (b : Box) (pos : ℝ × ℝ) : Prop :=
  b.x_min ≤ pos.1 ∧ pos.1 ≤ b.x_max ∧ b.y_min ≤ pos.2 ∧ pos.2 ≤ b.y_max

instance (b : Box) (pos : ℝ × ℝ) : Decidable (b.ist_innerhalb pos) := by
  unfold Box.ist_innerhalb; infer_instance

/-! ### Force model (`src/kraefte.py`) -/

/-- `berechne_gravitationskraft` (kraefte.py lines 14-28): `[0, m·g]`. -/
def berechne_gravitationskraft (t : Teilchen) : ℝ × ℝ :=
  (0, t.masse * GRAVITATION)

/-- The soft-core branch force magnitude
`q1·q2·r / (r² + ε²)^1.5` with `ε = MIN_ABSTAND`
(kraefte.py lines 60-64: `nenner = (r_quadrat + eps*eps) ** 1.5`,
`kraft_betrag = (q1*q2*abstand) / nenner`). -/
def kraft_betrag_softcore (q1 q2 r : ℝ) : ℝ :=
  q1 * q2 * r / ((r * r + MIN_ABSTAND * MIN_ABSTAND) ^ ((3 : ℝ) / 2))

/-- The inverse-square branch force magnitude `q1·q2 / r²`
(kraefte.py line 72: `kraft_betrag = (q1*q2) / abstand ** 2`). -/
def kraft_betrag_normal (q1 q2 r : ℝ) : ℝ :=
  q1 * q2 / r ^ 2

/-- `berechne_coulombkraft_zwischen` (kraefte.py lines 31-77): displacement
from `t2` to `t1`, Euclidean distance, zero force for exact overlap
(`abstand < EPSILON`), soft-core branch below `MIN_ABSTAND`, inverse-square
branch otherwise; the force points along the unit displacement. -/
def berechne_coulombkraft_zwischen (t1 t2 : Teilchen) : ℝ × ℝ :=
  let verschiebung := t1.position - t2.position
  let abstand := Real.sqrt (verschiebung.1 ^ 2 + verschiebung.2 ^ 2)
  if abstand < EPSILON then (0, 0)
  else if abstand < MIN_ABSTAND then
    let kraft_betrag := kraft_betrag_softcore t1.ladung t2.ladung abstand
    if 0 < abstand then
      (kraft_betrag * (verschiebung.1 / abstand), kraft_betrag * (verschiebung.2 / abstand))
    else (0, 0)
  else
    let kraft_betrag := kraft_betrag_normal t1.ladung t2.ladung abstand
    (kraft_betrag * (verschiebung.1 / abstand), kraft_betrag * (verschiebung.2 / abstand))

/-- `berechne_gesamte_elektrostatische_kraft` (kraefte.py lines 80-105):
sum of the pairwise Coulomb forces from every other particle. -/
def berechne_gesamte_elektrostatische_kraft (idx : ℕ) (tl : List Teilchen) : ℝ × ℝ :=
  let t_i := tl.getD idx default
  ((List.range tl.length).filter (fun j => j ≠ idx)).foldl
    (fun acc j => acc + berechne_coulombkraft_zwischen t_i (tl.getD j default)) (0, 0)

/-- `berechne_gesamtkraft` (kraefte.py lines 108-126): gravity plus the total
electrostatic force. -/
def berechne_gesamtkraft (idx : ℕ) (tl : List Teilchen) : ℝ × ℝ :=
  berechne_gravitationskraft (tl.getD idx default) +
    berechne_gesamte_elektrostatische_kraft idx tl

/-- `berechne_beschleunigung` (kraefte.py lines 129-152): `a = F/m`, with the
zero vector for numerically zero mass. -/
def berechne_beschleunigung (idx : ℕ) (tl : List Teilchen) : ℝ × ℝ :=
  let t := tl.getD idx default
  let gesamtkraft := berechne_gesamtkraft idx tl
  if |t.masse| < EPSILON then (0, 0)
  else (gesamtkraft.1 / t.masse, gesamtkraft.2 / t.masse)

/-- The index pairs `(i, j)` visited by the nested loops
`for i in range(n): for j in range(i+1, n)`, in iteration order. -/
def paar_indizes (n : ℕ) : List (ℕ × ℕ) :=
  (List.range n).flatMap fun i => (List.range' (i + 1) (n - (i + 1))).map fun j => (i, j)

/-- One iteration of the inner loop of `berechne_system_kraefte_symmetrisch`
(kraefte.py lines 234-239): compute the force on `i` from `j`, add it to
entry `i` and subtract the same vector from entry `j`. -/
def symmetrisches_paar (tl : List Teilchen) (k : List (ℝ × ℝ)) (ij : ℕ × ℕ) : List (ℝ × ℝ) :=
  let kraft_auf_i := berechne_coulombkraft_zwischen (tl.getD ij.1 default) (tl.getD ij.2 default)
  let k1 := k.set ij.1 (k.getD ij.1 (0, 0) + kraft_auf_i)
  k1.set ij.2 (k1.getD ij.2 (0, 0) - kraft_auf_i)

/-- `berechne_system_kraefte_symmetrisch` (kraefte.py lines 211-241).  The
initialisation (a list of zero vectors to which one gravity force each is
added in place) is modelled by mapping `berechne_gravitationskraft`; the
Coulomb double loop is the fold of `symmetrisches_paar` over `paar_indizes`. -/
def berechne_system_kraefte_symmetrisch (tl : List Teilchen) : List (ℝ × ℝ) :=
  (paar_indizes tl.length).foldl (symmetrisches_paar tl) (tl.map berechne_gravitationskraft)

/-- `berechne_system_beschleunigungen` (kraefte.py lines 244-264): forces from
the symmetric evaluation, divided per particle by its mass, with the zero
vector for numerically zero mass. -/
def berechne_system_beschleunigungen (tl : List Teilchen) : List (ℝ × ℝ) :=
  let kraefte := berechne_system_kraefte_symmetrisch tl
  (List.range tl.length).map fun i =>
    let t := tl.getD i default
    if |t.masse| < EPSILON then (0, 0)
    else ((kraefte.getD i (0, 0)).1 / t.masse, (kraefte.getD i (0, 0)).2 / t.masse)

/-! ### RK4 integrator (`src/integrator.py`) -/

/-- `zustandsableitung` (integrator.py lines 18-48): derivative
`[vx, vy, ax, ay]` per particle. -/
def zustandsableitung (tl : List Teilchen) : List Vec4 :=
  let beschleunigungen := berechne_system_beschleunigungen tl
  (tl.zip beschleunigungen).map fun p =>
    ⟨p.1.zustand.vx, p.1.zustand.vy, p.2.1, p.2.2⟩

/-- Replace the particles' states by the given state vectors, in order: the
mutation loops `for i, p in enumerate(...): p.aktualisiere_zustand(...)`. -/
def setze_zustaende : List Teilchen → List Vec4 → List Teilchen
  | p :: ps, z :: zs => p.aktualisiere_zustand z :: setze_zustaende ps zs
  | [], _ => []
  | ps, [] => ps

/-- `rk4_schritt_einzeln` (integrator.py lines 51-125).  Returns the particle
list as left behind by the call (the `finally` block restores all saved
states) together with the state increment for the target particle.  The
`teilchen` parameter of the Python function is never used in the body (the
particle is addressed through `teilchen_index`), so the embedding takes only
the list and the index. -/
def rk4_schritt_einzeln (alle : List Teilchen) (idx : ℕ) (dt : ℝ) :
    List Teilchen × Vec4 :=
  if |dt| < 1e-15 then (alle, 0)
  else
    let urspruengliche_zustaende := alle.map Teilchen.zustand
    let abl1 := zustandsableitung alle
    let k1 := dt • abl1.getD idx 0
    let stufe2 := setze_zustaende alle ((List.range alle.length).map fun i =>
      if i = idx then urspruengliche_zustaende.getD i 0 + (0.5 : ℝ) • k1
      else urspruengliche_zustaende.getD i 0 + ((0.5 : ℝ) * dt) • abl1.getD i 0)
    let abl2 := zustandsableitung stufe2
    let k2 := dt • abl2.getD idx 0
    let stufe3 := setze_zustaende stufe2 ((List.range alle.length).map fun i =>
      if i = idx then urspruengliche_zustaende.getD i 0 + (0.5 : ℝ) • k2
      else urspruengliche_zustaende.getD i 0 + ((0.5 : ℝ) * dt) • abl2.getD i 0)
    let abl3 := zustandsableitung stufe3
    let k3 := dt • abl3.getD idx 0
    let stufe4 := setze_zustaende stufe3 ((List.range alle.length).map fun i =>
      if i = idx then urspruengliche_zustaende.getD i 0 + k3
      else urspruengliche_zustaende.getD i 0 + dt • abl3.getD i 0)
    let abl4 := zustandsableitung stufe4
    let k4 := dt • abl4.getD idx 0
    let inkrement := ((1 : ℝ) / 6) • (k1 + (2 : ℝ) • k2 + (2 : ℝ) • k3 + k4)
    (setze_zustaende stufe4 urspruengliche_zustaende, inkrement)

/-- `rk4_schritt_system` (integrator.py lines 128-204).  Returns the particle
list as left behind by the call (the `finally` block restores all saved
states) together with the list of state increments. -/
def rk4_schritt_system (tl : List Teilchen) (dt : ℝ) :
    List Teilchen × List Vec4 :=
  if |dt| < 1e-15 then (tl, tl.map fun _ => 0)
  else
    let urspruengliche_zustaende := tl.map Teilchen.zustand
    let k1 := (zustandsableitung tl).map (dt • ·)
    let stufe2 := setze_zustaende tl ((List.range tl.length).map fun i =>
      urspruengliche_zustaende.getD i 0 + (0.5 : ℝ) • k1.getD i 0)
    let k2 := (zustandsableitung stufe2).map (dt • ·)
    let stufe3 := setze_zustaende stufe2 ((List.range tl.length).map fun i =>
      urspruengliche_zustaende.getD i 0 + (0.5 : ℝ) • k2.getD i 0)
    let k3 := (zustandsableitung stufe3).map (dt • ·)
    let stufe4 := setze_zustaende stufe3 ((List.range tl.length).map fun i =>
      urspruengliche_zustaende.getD i 0 + k3.getD i 0)
    let k4 := (zustandsableitung stufe4).map (dt • ·)
    let inkremente := (List.range tl.length).map fun i =>
      ((1 : ℝ) / 6) •
        (k1.getD i 0 + (2 : ℝ) • k2.getD i 0 + (2 : ℝ) • k3.getD i 0 + k4.getD i 0)
    (setze_zustaende stufe4 urspruengliche_zustaende, inkremente)

/-- `rk4_schritt_einzeln` with the derivative evaluation abstracted as a
fallible function `f` (a raised exception is `none`), modelling the
`try/finally` of integrator.py lines 79-123: whichever stage evaluation
raises, the `finally` block first restores all saved states and then lets
the exception propagate (second component `none`). -/
def rk4_einzeln_mit_ausnahme (f : List Teilchen → Option (List Vec4))
    (alle : List Teilchen) (idx : ℕ) (dt : ℝ) : List Teilchen × Option Vec4 :=
  if |dt| < 1e-15 then (alle, some 0)
  else
    let urspruengliche_zustaende := alle.map Teilchen.zustand
    match f alle with
    | none => (setze_zustaende alle urspruengliche_zustaende, none)
    | some abl1 =>
      let k1 := dt • abl1.getD idx 0
      let stufe2 := setze_zustaende alle ((List.range alle.length).map fun i =>
        if i = idx then urspruengliche_zustaende.getD i 0 + (0.5 : ℝ) • k1
        else urspruengliche_zustaende.getD i 0 + ((0.5 : ℝ) * dt) • abl1.getD i 0)
      match f stufe2 with
      | none => (setze_zustaende stufe2 urspruengliche_zustaende, none)
      | some abl2 =>
        let k2 := dt • abl2.getD idx 0
        let stufe3 := setze_zustaende stufe2 ((List.range alle.length).map fun i =>
          if i = idx then urspruengliche_zustaende.getD i 0 + (0.5 : ℝ) • k2
          else urspruengliche_zustaende.getD i 0 + ((0.5 : ℝ) * dt) • abl2.getD i 0)
        match f stufe3 with
        | none => (setze_zustaende stufe3 urspruengliche_zustaende, none)
        | some abl3 =>
          let k3 := dt • abl3.getD idx 0
          let stufe4 := setze_zustaende stufe3 ((List.range alle.length).map fun i =>
            if i = idx then urspruengliche_zustaende.getD i 0 + k3
            else urspruengliche_zustaende.getD i 0 + dt • abl3.getD i 0)
          match f stufe4 with
          | none => (setze_zustaende stufe4 urspruengliche_zustaende, none)
          | some abl4 =>
            let k4 := dt • abl4.getD idx 0
            let inkrement := ((1 : ℝ) / 6) • (k1 + (2 : ℝ) • k2 + (2 : ℝ) • k3 + k4)
            (setze_zustaende stufe4 urspruengliche_zustaende, some inkrement)

/-- `rk4_schritt_system` with the derivative evaluation abstracted as a
fallible function `f`, modelling the `try/finally` of integrator.py lines
158-202 in the same way as `rk4_einzeln_mit_ausnahme`. -/
def rk4_system_mit_ausnahme (f : List Teilchen → Option (List Vec4))
    (tl : List Teilchen) (dt : ℝ) : List Teilchen × Option (List Vec4) :=
  if |dt| < 1e-15 then (tl, some (tl.map fun _ => 0))
  else
    let urspruengliche_zustaende := tl.map Teilchen.zustand
    match f tl with
    | none => (setze_zustaende tl urspruengliche_zustaende, none)
    | some abl1 =>
      let k1 := abl1.map (dt • ·)
      let stufe2 := setze_zustaende tl ((List.range tl.length).map fun i =>
        urspruengliche_zustaende.getD i 0 + (0.5 : ℝ) • k1.getD i 0)
      match f stufe2 with
      | none => (setze_zustaende stufe2 urspruengliche_zustaende, none)
      | some abl2 =>
        let k2 := abl2.map (dt • ·)
        let stufe3 := setze_zustaende stufe2 ((List.range tl.length).map fun i =>
          urspruengliche_zustaende.getD i 0 + (0.5 : ℝ) • k2.getD i 0)
        match f stufe3 with
        | none => (setze_zustaende stufe3 urspruengliche_zustaende, none)
        | some abl3 =>
          let k3 := abl3.map (dt • ·)
          let stufe4 := setze_zustaende stufe3 ((List.range tl.length).map fun i =>
            urspruengliche_zustaende.getD i 0 + k3.getD i 0)
          match f stufe4 with
          | none => (setze_zustaende stufe4 urspruengliche_zustaende, none)
          | some abl4 =>
            let k4 := abl4.map (dt • ·)
            let inkremente := (List.range tl.length).map fun i =>
              ((1 : ℝ) / 6) •
                (k1.getD i 0 + (2 : ℝ) • k2.getD i 0 + (2 : ℝ) • k3.getD i 0 + k4.getD i 0)
            (setze_zustaende stufe4 urspruengliche_zustaende, some inkremente)

/-! ### Exact wall-collision handling (`src/box.py`) -/

/-- The four walls of the box, named as in the Python string literals. -/
inductive Wand where
  | links
  | rechts
  | unten
  | oben
deriving DecidableEq

/-- `np.clip(a, lo, hi)` for `lo ≤ hi`. -/
def klippe (a lo hi : ℝ) : ℝ := min (max a lo) hi

/-- `Box._wuerde_im_naechsten_schritt_austreten` (box.py lines 235-245):
linear look-ahead of the position over `dt`. -/
def wuerde_im_naechsten_schritt_austreten (b : Box) (z : Vec4) (dt : ℝ) : Prop :=
  ¬ b.ist_innerhalb (z.x + z.vx * dt, z.y + z.vy * dt)

instance (b : Box) (z : Vec4) (dt : ℝ) :
    Decidable (wuerde_im_naechsten_schritt_austreten b z dt) := by
  unfold wuerde_im_naechsten_schritt_austreten; infer_instance

/-- The wall scan of `Box.behandle_wandkollision_exakt` (box.py lines
109-152): starting from fraction `1.0` and no wall, check the left wall
(`if`), the right wall (`elif`), then the bottom wall (`if`) and the top
wall (`elif`); a wall is recorded when the trajectory crosses it, the
coordinate changes by more than `EPSILON`, and its fraction is non-negative
and strictly below the best fraction so far. -/
def horizontale_pruefung (b : Box) (x0 x1 : ℝ) (s : ℝ × Option Wand) : ℝ × Option Wand :=
  if x1 < b.x_min ∧ b.x_min ≤ x0 then
    if EPSILON < |x1 - x0| then
      let t_links := (b.x_min - x0) / (x1 - x0)
      if 0 ≤ t_links ∧ t_links < s.1 then (t_links, some Wand.links) else s
    else s
  else if b.x_max < x1 ∧ x0 ≤ b.x_max then
    if EPSILON < |x1 - x0| then
      let t_rechts := (b.x_max - x0) / (x1 - x0)
      if 0 ≤ t_rechts ∧ t_rechts < s.1 then (t_rechts, some Wand.rechts) else s
    else s
  else s

def vertikale_pruefung (b : Box) (y0 y1 : ℝ) (s : ℝ × Option Wand) : ℝ × Option Wand :=
  if y1 < b.y_min ∧ b.y_min ≤ y0 then
    if EPSILON < |y1 - y0| then
      let t_unten := (b.y_min - y0) / (y1 - y0)
      if 0 ≤ t_unten ∧ t_unten < s.1 then (t_unten, some Wand.unten) else s
    else s
  else if b.y_max < y1 ∧ y0 ≤ b.y_max then
    if EPSILON < |y1 - y0| then
      let t_oben := (b.y_max - y0) / (y1 - y0)
      if 0 ≤ t_oben ∧ t_oben < s.1 then (t_oben, some Wand.oben) else s
    else s
  else s

def finde_kollision (b : Box) (x0 y0 x1 y1 : ℝ) : ℝ × Option Wand :=
  vertikale_pruefung b y0 y1 (horizontale_pruefung b x0 x1 (1, none))

/-- The crossing condition of the scan for each wall: end coordinate on the
illegal side, start coordinate on the legal side, and the coordinate changes
by more than `EPSILON` (box.py lines 120, 124, 131-132, 139-140, 147-148). -/
def wandkreuzung (b : Box) (x0 y0 x1 y1 : ℝ) : Wand → Prop
  | Wand.links => x1 < b.x_min ∧ b.x_min ≤ x0 ∧ EPSILON < |x1 - x0|
  | Wand.rechts => b.x_max < x1 ∧ x0 ≤ b.x_max ∧ EPSILON < |x1 - x0|
  | Wand.unten => y1 < b.y_min ∧ b.y_min ≤ y0 ∧ EPSILON < |y1 - y0|
  | Wand.oben => b.y_max < y1 ∧ y0 ≤ b.y_max ∧ EPSILON < |y1 - y0|

/-- The interpolation fraction
`t_wall = (wall_coordinate - start) / (end - start)` per wall. -/
def wand_bruchteil (b : Box) (x0 y0 x1 y1 : ℝ) : Wand → ℝ
  | Wand.links => (b.x_min - x0) / (x1 - x0)
  | Wand.rechts => (b.x_max - x0) / (x1 - x0)
  | Wand.unten => (b.y_min - y0) / (y1 - y0)
  | Wand.oben => (b.y_max - y0) / (y1 - y0)

/-- Set the state of the particle at `idx`: the mutation
`teilchen.aktualisiere_zustand(z)` with `teilchen = alle[idx]`. -/
def setze_zustand (tl : List Teilchen) (idx : ℕ) (z : Vec4) : List Teilchen :=
  tl.set idx ((tl.getD idx default).aktualisiere_zustand z)

/-- The mutation `teilchen.kollisionszaehler += 1` with `teilchen = alle[idx]`. -/
def erhoehe_kollisionszaehler (tl : List Teilchen) (idx : ℕ) : List Teilchen :=
  let t := tl.getD idx default
  tl.set idx { t with kollisionszaehler := t.kollisionszaehler + 1 }

/-- The values produced by steps 4-7 of `Box.behandle_wandkollision_exakt`. -/
structure Zwischenergebnis where
  box : Box
  alle : List Teilchen
  reflektiert : Vec4
  finaler : Vec4
  dt_nach : ℝ

/-- Steps 4-7 of `Box.behandle_wandkollision_exakt` (box.py lines 154-217)
for a given scan result `(bruchteil, wand)`: integrate up to the collision
instant, reflect the normal velocity component and count the collision,
integrate the remaining sub-interval from the reflected state (transiently
setting and then restoring the particle's state), and clamp the result onto
the bounds if it is still outside.  The final containment check and the
clamp read the bounds from `box`; in the source they read `self`, whose
bounds are identical (the collision-counter increment in step 5 never
touches the bounds). -/
def kollisionsverarbeitung (box : Box) (alle : List Teilchen) (idx : ℕ) (dt : ℝ)
    (urspruenglich : Vec4) (scan : ℝ × Option Wand) : Zwischenergebnis :=
  let bruchteil := scan.1
  let wand := scan.2
  let dt_bis_kollision := bruchteil * dt
  let schritt :=
    if EPSILON < dt_bis_kollision then
      let r2 := rk4_schritt_einzeln alle idx dt_bis_kollision
      (r2.1, urspruenglich + r2.2)
    else (alle, urspruenglich)
  let zustand_bei_kollision := schritt.2
  let reflektiert :=
    match wand with
    | some Wand.links => { zustand_bei_kollision with vx := -zustand_bei_kollision.vx }
    | some Wand.rechts => { zustand_bei_kollision with vx := -zustand_bei_kollision.vx }
    | some Wand.unten => { zustand_bei_kollision with vy := -zustand_bei_kollision.vy }
    | some Wand.oben => { zustand_bei_kollision with vy := -zustand_bei_kollision.vy }
    | none => zustand_bei_kollision
  let box1 :=
    if wand.isSome then { box with gesamt_kollisionen := box.gesamt_kollisionen + 1 } else box
  let alle3 := if wand.isSome then erhoehe_kollisionszaehler schritt.1 idx else schritt.1
  let dt_nach_kollision := dt - dt_bis_kollision
  let rest :=
    if EPSILON < dt_nach_kollision then
      let r3 := rk4_schritt_einzeln (setze_zustand alle3 idx reflektiert) idx dt_nach_kollision
      (setze_zustand r3.1 idx urspruenglich, reflektiert + r3.2)
    else (alle3, reflektiert)
  let finaler0 := rest.2
  let finaler1 :=
    if box.ist_innerhalb (finaler0.x, finaler0.y) then finaler0
    else ⟨klippe finaler0.x box.x_min box.x_max, klippe finaler0.y box.y_min box.y_max,
          finaler0.vx, finaler0.vy⟩
  ⟨box1, rest.1, reflektiert, finaler1, dt_nach_kollision⟩

/-- `Box.behandle_wandkollision_exakt` (box.py lines 62-233), embedded with a
structural fuel argument standing for the recursion depth still allowed:
`none` means the recursion would have to go deeper than the supplied fuel.
The secondary-collision recursion transiently sets the particle's state to
the reflected state and restores the original state afterwards.  The box
(with its cumulative collision counter) and the particle list are threaded
explicitly. -/
def behandle_fuel : ℕ → Box → List Teilchen → ℕ → ℝ → Option (Box × List Teilchen × Vec4)
  | 0, _, _, _, _ => none
  | fuel + 1, box, alle, idx, dt =>
    let urspruenglich := (alle.getD idx default).zustand
    let r1 := rk4_schritt_einzeln alle idx dt
    let vorlaeufig := urspruenglich + r1.2
    if box.ist_innerhalb (vorlaeufig.x, vorlaeufig.y) then some (box, r1.1, vorlaeufig)
    else
      let scan := finde_kollision box urspruenglich.x urspruenglich.y vorlaeufig.x vorlaeufig.y
      let z := kollisionsverarbeitung box r1.1 idx dt urspruenglich scan
      if ¬ z.box.ist_innerhalb (z.finaler.x, z.finaler.y) ∨
          wuerde_im_naechsten_schritt_austreten z.box z.finaler (dt * 0.1) then
        if EPSILON < z.dt_nach ∧ z.box.gesamt_kollisionen < MAX_KOLLISIONS_ITERATIONEN then
          match behandle_fuel fuel z.box (setze_zustand z.alle idx z.reflektiert) idx z.dt_nach with
          | none => none
          | some r => some (r.1, setze_zustand r.2.1 idx urspruenglich, r.2.2)
        else some (z.box, z.alle, z.finaler)
      else some (z.box, z.alle, z.finaler)

/-- `Box.behandle_wandkollision_exakt` with enough fuel for the deepest
possible recursion (the counter guard bounds the depth by
`MAX_KOLLISIONS_ITERATIONEN`). -/
def behandle_wandkollision_exakt (box : Box) (alle : List Teilchen) (idx : ℕ) (dt : ℝ) :
    Option (Box × List Teilchen × Vec4) :=
  behandle_fuel (MAX_KOLLISIONS_ITERATIONEN + 1) box alle idx dt

/-- The acceleration of an isolated particle (a one-element system): no
Coulomb pair exists, so only gravity acts, and the result depends only on
the mass (used to state that the acceleration is constant across RK4
stages). -/
def einzel_beschleunigung (m : ℝ) : ℝ × ℝ :=
  if |m| < EPSILON then (0, 0) else (0 / m, m * GRAVITATION / m)

/-! ## Theorems -/

/-! ### Componentwise arithmetic on `Vec4` -/

@[simp] theorem Vec4.zero_x : (0 : Vec4).x = 0 := rfl
@[simp] theorem Vec4.zero_y : (0 : Vec4).y = 0 := rfl
@[simp] theorem Vec4.zero_vx : (0 : Vec4).vx = 0 := rfl
@[simp] theorem Vec4.zero_vy : (0 : Vec4).vy = 0 := rfl
@[simp] theorem Vec4.add_x (a b : Vec4) : (a + b).x = a.x + b.x := rfl
@[simp] theorem Vec4.add_y (a b : Vec4) : (a + b).y = a.y + b.y := rfl
@[simp] theorem Vec4.add_vx (a b : Vec4) : (a + b).vx = a.vx + b.vx := rfl
@[simp] theorem Vec4.add_vy (a b : Vec4) : (a + b).vy = a.vy + b.vy := rfl
@[simp] theorem Vec4.smul_x (c : ℝ) (a : Vec4) : (c • a).x = c * a.x := rfl
@[simp] theorem Vec4.smul_y (c : ℝ) (a : Vec4) : (c • a).y = c * a.y := rfl
@[simp] theorem Vec4.smul_vx (c : ℝ) (a : Vec4) : (c • a).vx = c * a.vx := rfl
@[simp] theorem Vec4.smul_vy (c : ℝ) (a : Vec4) : (c • a).vy = c * a.vy := rfl

@[simp] theorem Vec4.add_zero (a : Vec4) : a + 0 = a := by
  ext <;> simp

@[simp] theorem Vec4.zero_add (a : Vec4) : 0 + a = a := by
  ext <;> simp

/-! ### State saving and restoring -/

theorem rumpf_setze_zustaende (l : List Teilchen) (zs : List Vec4) :
    (setze_zustaende l zs).map Teilchen.rumpf = l.map Teilchen.rumpf := by
  induction l generalizing zs with
  | nil => cases zs <;> rfl
  | cons p ps ih =>
    cases zs with
    | nil => rfl
    | cons z zs =>
      simp only [setze_zustaende, List.map_cons, ih]
      rfl

/-- Writing the saved state vectors of `l` back onto any list that differs
from `l` only in its state vectors recovers `l` exactly. -/
theorem setze_zustaende_wiederherstellung (l' l : List Teilchen)
    (h : l'.map Teilchen.rumpf = l.map Teilchen.rumpf) :
    setze_zustaende l' (l.map Teilchen.zustand) = l := by
  induction l generalizing l' with
  | nil =>
    cases l' with
    | nil => rfl
    | cons q qs => simp at h
  | cons p ps ih =>
    cases l' with
    | nil => simp at h
    | cons q qs =>
      simp only [List.map_cons, List.cons.injEq] at h
      obtain ⟨h1, h2⟩ := h
      simp only [List.map_cons, setze_zustaende, ih qs h2, List.cons.injEq, and_true]
      obtain ⟨qm, ql, qz, qk⟩ := q
      obtain ⟨pm, pl, pz, pk⟩ := p
      simp only [Teilchen.rumpf, Prod.mk.injEq] at h1
      simp [Teilchen.aktualisiere_zustand, h1.1, h1.2.1, h1.2.2]

/-- **C5**: both RK4 step variants leave every particle exactly as it was
before the call: the `finally` block writes all saved state vectors back, so
the particle list coming out of the call equals the list going in, both for
the concrete derivative evaluation and, through the exception-modelling
variants, for an arbitrary fallible derivative evaluation (the increments
are returned, never applied). -/
theorem rk4_stellt_zustaende_wieder_her :
    (∀ alle idx dt, (rk4_schritt_einzeln alle idx dt).1 = alle) ∧
    (∀ tl dt, (rk4_schritt_system tl dt).1 = tl) ∧
    (∀ f alle idx dt, (rk4_einzeln_mit_ausnahme f alle idx dt).1 = alle) ∧
    (∀ f tl dt, (rk4_system_mit_ausnahme f tl dt).1 = tl) := by
  refine ⟨fun alle idx dt => ?_, fun tl dt => ?_, fun f alle idx dt => ?_, fun f tl dt => ?_⟩
  · unfold rk4_schritt_einzeln
    split
    · rfl
    · exact setze_zustaende_wiederherstellung _ _ (by simp only [rumpf_setze_zustaende])
  · unfold rk4_schritt_system
    split
    · rfl
    · exact setze_zustaende_wiederherstellung _ _ (by simp only [rumpf_setze_zustaende])
  · unfold rk4_einzeln_mit_ausnahme
    split
    · rfl
    · split
      · exact setze_zustaende_wiederherstellung _ _ rfl
      · dsimp only
        split
        · exact setze_zustaende_wiederherstellung _ _ (by simp only [rumpf_setze_zustaende])
        · try dsimp only
          split
          · exact setze_zustaende_wiederherstellung _ _ (by simp only [rumpf_setze_zustaende])
          · try dsimp only
            split
            · exact setze_zustaende_wiederherstellung _ _ (by simp only [rumpf_setze_zustaende])
            · exact setze_zustaende_wiederherstellung _ _ (by simp only [rumpf_setze_zustaende])
  · unfold rk4_system_mit_ausnahme
    split
    · rfl
    · split
      · exact setze_zustaende_wiederherstellung _ _ rfl
      · dsimp only
        split
        · exact setze_zustaende_wiederherstellung _ _ (by simp only [rumpf_setze_zustaende])
        · try dsimp only
          split
          · exact setze_zustaende_wiederherstellung _ _ (by simp only [rumpf_setze_zustaende])
          · try dsimp only
            split
            · exact setze_zustaende_wiederherstellung _ _ (by simp only [rumpf_setze_zustaende])
            · exact setze_zustaende_wiederherstellung _ _ (by simp only [rumpf_setze_zustaende])

/-! ### Newton's third law bookkeeping (C3) -/

theorem paar_indizes_mem {n : ℕ} {ij : ℕ × ℕ} (h : ij ∈ paar_indizes n) :
    ij.1 < ij.2 ∧ ij.2 < n := by
  unfold paar_indizes at h
  simp only [List.mem_flatMap, List.mem_map] at h
  obtain ⟨i, hi, j, hj, rfl⟩ := h
  rw [List.mem_range] at hi
  rw [List.mem_range'_1] at hj
  omega

theorem symmetrisches_paar_length (tl : List Teilchen) (k : List (ℝ × ℝ)) (ij : ℕ × ℕ) :
    (symmetrisches_paar tl k ij).length = k.length := by
  simp [symmetrisches_paar]

theorem sum_set_getD (k : List (ℝ × ℝ)) (i : ℕ) (x : ℝ × ℝ) (h : i < k.length) :
    (k.set i x).sum = k.sum - k.getD i (0, 0) + x := by
  induction k generalizing i with
  | nil => simp at h
  | cons a as ih =>
    cases i with
    | zero => simp [List.set]; abel
    | succ i =>
      simp only [List.set, List.sum_cons, List.getD_cons_succ,
        ih i (by simpa using h)]
      abel

/-- One pair update adds the pair force to one entry and subtracts the same
vector from another, so the total is unchanged. -/
theorem symmetrisches_paar_sum (tl : List Teilchen) (k : List (ℝ × ℝ)) (ij : ℕ × ℕ)
    (h1 : ij.1 < k.length) (h2 : ij.2 < k.length) :
    (symmetrisches_paar tl k ij).sum = k.sum := by
  unfold symmetrisches_paar
  have hlen : ij.2 < (k.set ij.1 (k.getD ij.1 (0, 0) +
      berechne_coulombkraft_zwischen (tl.getD ij.1 default) (tl.getD ij.2 default))).length := by
    simpa using h2
  rw [sum_set_getD _ _ _ hlen, sum_set_getD _ _ _ h1]
  abel

theorem foldl_symmetrische_paare_sum (tl : List Teilchen) (ps : List (ℕ × ℕ))
    (k : List (ℝ × ℝ)) (hps : ∀ ij ∈ ps, ij.1 < k.length ∧ ij.2 < k.length) :
    (ps.foldl (symmetrisches_paar tl) k).sum = k.sum := by
  induction ps generalizing k with
  | nil => rfl
  | cons ij ps ih =>
    have h := hps ij (List.mem_cons_self _ _)
    rw [List.foldl_cons, ih _ ?_, symmetrisches_paar_sum tl k ij h.1 h.2]
    intro ij' hij'
    have := hps ij' (List.mem_cons_of_mem _ hij')
    simpa [symmetrisches_paar_length] using this

/-- **C3**: the symmetric force evaluation adds each unordered pair's Coulomb
force to the first particle and subtracts the exact same vector from the
second, so the Coulomb contributions cancel pairwise and the sum of all
returned force vectors equals the sum of the individual gravity forces. -/
theorem summe_system_kraefte_symmetrisch (tl : List Teilchen) :
    (berechne_system_kraefte_symmetrisch tl).sum =
      (tl.map berechne_gravitationskraft).sum := by
  unfold berechne_system_kraefte_symmetrisch
  apply foldl_symmetrische_paare_sum
  intro ij hij
  have h := paar_indizes_mem hij
  simp only [List.length_map]
  omega

/-! ### Accelerations (C9) -/

@[simp] theorem aktualisiere_zustand_masse (t : Teilchen) (z : Vec4) :
    (t.aktualisiere_zustand z).masse = t.masse := rfl

@[simp] theorem aktualisiere_zustand_ladung (t : Teilchen) (z : Vec4) :
    (t.aktualisiere_zustand z).ladung = t.ladung := rfl

@[simp] theorem aktualisiere_zustand_zustand (t : Teilchen) (z : Vec4) :
    (t.aktualisiere_zustand z).zustand = z := rfl

theorem getD_map_range {α : Type} (n i : ℕ) (f : ℕ → α) (d : α) (h : i < n) :
    ((List.range n).map f).getD i d = f i := by
  rw [List.getD_eq_getElem _ _ (by simpa using h)]
  simp

/-- **C9**: the system acceleration routine is total in the embedding and
divides by a particle's mass only after checking it is not numerically
zero: a particle with `|mass| < EPSILON` gets the zero acceleration, every
other particle gets its symmetric net force divided componentwise by its
mass. -/
theorem beschleunigungen_nullmasse_schutz (tl : List Teilchen) (i : ℕ) (h : i < tl.length) :
    (berechne_system_beschleunigungen tl).length = tl.length ∧
    (|(tl.getD i default).masse| < EPSILON →
      (berechne_system_beschleunigungen tl).getD i (0, 0) = (0, 0)) ∧
    (¬ |(tl.getD i default).masse| < EPSILON →
      (berechne_system_beschleunigungen tl).getD i (0, 0) =
        (((berechne_system_kraefte_symmetrisch tl).getD i (0, 0)).1 / (tl.getD i default).masse,
         ((berechne_system_kraefte_symmetrisch tl).getD i (0, 0)).2 / (tl.getD i default).masse)) := by
  refine ⟨by simp [berechne_system_beschleunigungen], ?_, ?_⟩
  · intro hm
    unfold berechne_system_beschleunigungen
    rw [getD_map_range _ _ _ _ h]
    simp only [if_pos hm]
  · intro hm
    unfold berechne_system_beschleunigungen
    rw [getD_map_range _ _ _ _ h]
    simp only [if_neg hm]

/-- Witness for C9: a concrete zero-mass particle gets the zero acceleration
vector instead of a division by zero. -/
theorem beschleunigungen_nullmasse_schutz_zeuge :
    (berechne_system_beschleunigungen
        [({ masse := 0, ladung := 5, zustand := ⟨1, 2, 3, 4⟩, kollisionszaehler := 0 } :
          Teilchen)]).getD 0 (0, 0) = (0, 0) :=
  (beschleunigungen_nullmasse_schutz _ 0 (by norm_num)).2.1
    (by norm_num [EPSILON])

/-! ### Construction-time validation (C8) -/

/-- **C8 counterexample**: `Teilchen.__init__` performs no mass validation,
so constructing a particle with mass `-1` succeeds (the constructor is a
total function in the source: it contains no `raise`) and yields a particle
whose stored mass is the non-positive `-1`. -/
theorem teilchen_init_akzeptiert_nichtpositive_masse :
    teilchen_init 0 0 0 0 (some (-1)) none =
      { masse := -1, ladung := LADUNG, zustand := ⟨0, 0, 0, 0⟩, kollisionszaehler := 0 } ∧
    (teilchen_init 0 0 0 0 (some (-1)) none).masse ≤ 0 := by
  refine ⟨rfl, ?_⟩
  norm_num [teilchen_init]

/-- **C8 amended**: particle construction stores any given mass unchecked
(no configuration error is ever raised there), while box construction fails
eagerly with a `ValueError` exactly when the width or the height is
non-positive. -/
theorem konstruktor_validierung :
    (∀ x y vx vy m q, (teilchen_init x y vx vy (some m) q).masse = m) ∧
    (∀ x_min x_max y_min y_max : ℝ,
      (∃ e, box_init x_min x_max y_min y_max = Except.error e) ↔
        (x_max - x_min ≤ 0 ∨ y_max - y_min ≤ 0)) := by
  constructor
  · intro x y vx vy m q
    rfl
  · intro a b c d
    by_cases h : b ≤ a ∨ d ≤ c <;> simp [box_init, sub_nonpos, h]

/-! ### RK4 on a one-particle system (C2) -/

theorem paar_indizes_eins : paar_indizes 1 = [] := by decide

theorem kraefte_symmetrisch_einzeln (q : Teilchen) :
    berechne_system_kraefte_symmetrisch [q] = [berechne_gravitationskraft q] := by
  simp [berechne_system_kraefte_symmetrisch, paar_indizes_eins]

theorem beschleunigungen_einzeln (q : Teilchen) :
    berechne_system_beschleunigungen [q] = [einzel_beschleunigung q.masse] := by
  have hr : List.range 1 = [0] := rfl
  simp [berechne_system_beschleunigungen, kraefte_symmetrisch_einzeln,
    einzel_beschleunigung, berechne_gravitationskraft, hr]

theorem ableitung_einzeln (q : Teilchen) :
    zustandsableitung [q] =
      [⟨q.zustand.vx, q.zustand.vy,
        (einzel_beschleunigung q.masse).1, (einzel_beschleunigung q.masse).2⟩] := by
  simp [zustandsableitung, beschleunigungen_einzeln]

/-- **C2 amended**: for a one-particle system (no inter-particle force, so
the acceleration is the constant computed by the force model) and any step
size `dt` that is not swallowed by the zero-step guard (`|dt| ≥ 1e-15`),
the RK4 system step returns exactly the analytic constant-acceleration
increment `[v·dt + a·dt²/2, a·dt]`. -/
theorem rk4_system_konstante_beschleunigung (p : Teilchen) (dt : ℝ)
    (h : (1e-15 : ℝ) ≤ |dt|) :
    (rk4_schritt_system [p] dt).2 =
      [⟨p.zustand.vx * dt + ((berechne_system_beschleunigungen [p]).getD 0 (0, 0)).1 * dt ^ 2 / 2,
        p.zustand.vy * dt + ((berechne_system_beschleunigungen [p]).getD 0 (0, 0)).2 * dt ^ 2 / 2,
        ((berechne_system_beschleunigungen [p]).getD 0 (0, 0)).1 * dt,
        ((berechne_system_beschleunigungen [p]).getD 0 (0, 0)).2 * dt⟩] := by
  rcases ha : einzel_beschleunigung p.masse with ⟨a1, a2⟩
  have hr : List.range 1 = [0] := rfl
  rw [rk4_schritt_system, if_neg (not_lt.mpr h), beschleunigungen_einzeln, ha]
  dsimp only
  simp only [List.length_cons, List.length_nil, hr, List.map_cons, List.map_nil,
    List.getD_cons_zero, setze_zustaende, ableitung_einzeln, aktualisiere_zustand_masse, ha,
    Vec4.smul_x, Vec4.smul_y, Vec4.smul_vx, Vec4.smul_vy,
    Vec4.add_x, Vec4.add_y, Vec4.add_vx, Vec4.add_vy, aktualisiere_zustand_zustand,
    List.cons.injEq, and_true, Vec4.mk.injEq]
  ext <;>
    simp only [Vec4.smul_x, Vec4.smul_y, Vec4.smul_vx, Vec4.smul_vy,
      Vec4.add_x, Vec4.add_y, Vec4.add_vx, Vec4.add_vy] <;>
    ring

/-- Witness for the amended C2 at a concrete particle and `dt = 1`. -/
theorem rk4_system_konstante_beschleunigung_zeuge :
    (rk4_schritt_system
        [({ masse := 1, ladung := 0, zustand := ⟨2, 3, 4, 5⟩, kollisionszaehler := 0 } :
          Teilchen)] 1).2 =
      [⟨(⟨2, 3, 4, 5⟩ : Vec4).vx * 1 +
          ((berechne_system_beschleunigungen
              [({ masse := 1, ladung := 0, zustand := ⟨2, 3, 4, 5⟩, kollisionszaehler := 0 } :
                Teilchen)]).getD 0 (0, 0)).1 * 1 ^ 2 / 2,
        (⟨2, 3, 4, 5⟩ : Vec4).vy * 1 +
          ((berechne_system_beschleunigungen
              [({ masse := 1, ladung := 0, zustand := ⟨2, 3, 4, 5⟩, kollisionszaehler := 0 } :
                Teilchen)]).getD 0 (0, 0)).2 * 1 ^ 2 / 2,
        ((berechne_system_beschleunigungen
            [({ masse := 1, ladung := 0, zustand := ⟨2, 3, 4, 5⟩, kollisionszaehler := 0 } :
              Teilchen)]).getD 0 (0, 0)).1 * 1,
        ((berechne_system_beschleunigungen
            [({ masse := 1, ladung := 0, zustand := ⟨2, 3, 4, 5⟩, kollisionszaehler := 0 } :
              Teilchen)]).getD 0 (0, 0)).2 * 1⟩] :=
  rk4_system_konstante_beschleunigung _ 1 (by rw [abs_one]; norm_num)

/-- **C2 counterexample**: for `dt = 1e-16` (non-zero but below the guard
threshold `1e-15`) the code returns the all-zero increment, while the
claimed analytic increment `v·dt + a·dt²/2` is `1e-16 ≠ 0` in its first
component for a unit-mass particle with `vx = 1`. -/
theorem rk4_winzige_schrittweite_gegenbeispiel :
    ((rk4_schritt_system
        [({ masse := 1, ladung := 0, zustand := ⟨0, 0, 1, 0⟩, kollisionszaehler := 0 } :
          Teilchen)] 1e-16).2.getD 0 0).x = 0 ∧
    ({ masse := 1, ladung := 0, zustand := ⟨0, 0, 1, 0⟩, kollisionszaehler := 0 } :
        Teilchen).zustand.vx * (1e-16 : ℝ) +
      ((berechne_system_beschleunigungen
          [({ masse := 1, ladung := 0, zustand := ⟨0, 0, 1, 0⟩, kollisionszaehler := 0 } :
            Teilchen)]).getD 0 (0, 0)).1 * (1e-16 : ℝ) ^ 2 / 2 ≠ 0 := by
  constructor
  · rw [rk4_schritt_system,
      if_pos (by rw [show |(1e-16 : ℝ)| = 1e-16 from abs_of_pos (by norm_num)]; norm_num)]
    simp
  · rw [beschleunigungen_einzeln]
    simp only [einzel_beschleunigung, List.getD_cons_zero]
    norm_num [EPSILON]

/-! ### The wall scan (C7) -/

/-- A crossing towards a lower bound (`left`/`bottom` wall) always has an
interpolation fraction in `[0, 1)`. -/
theorem bruchteil_in_intervall {c s e : ℝ} (h1 : e < c) (h2 : c ≤ s) :
    0 ≤ (c - s) / (e - s) ∧ (c - s) / (e - s) < 1 := by
  have hden : e - s < 0 := by linarith
  refine ⟨div_nonneg_of_nonpos (by linarith) (by linarith), ?_⟩
  rw [div_lt_one_iff]
  right; right
  exact ⟨hden, by linarith⟩

/-- A crossing towards an upper bound (`right`/`top` wall) always has an
interpolation fraction in `[0, 1)`. -/
theorem bruchteil_in_intervall' {c s e : ℝ} (h1 : c < e) (h2 : s ≤ c) :
    0 ≤ (c - s) / (e - s) ∧ (c - s) / (e - s) < 1 := by
  have hden : (0 : ℝ) < e - s := by linarith
  refine ⟨div_nonneg (by linarith) (by linarith), ?_⟩
  rw [div_lt_one hden]
  linarith

theorem wandkreuzung_bruchteil_schranken (b : Box) (x0 y0 x1 y1 : ℝ) (w : Wand)
    (hw : wandkreuzung b x0 y0 x1 y1 w) :
    0 ≤ wand_bruchteil b x0 y0 x1 y1 w ∧ wand_bruchteil b x0 y0 x1 y1 w < 1 := by
  cases w
  · exact bruchteil_in_intervall hw.1 hw.2.1
  · exact bruchteil_in_intervall' hw.1 hw.2.1
  · exact bruchteil_in_intervall hw.1 hw.2.1
  · exact bruchteil_in_intervall' hw.1 hw.2.1

theorem horizontale_links_spec (b : Box) (x0 x1 : ℝ) (s : ℝ × Option Wand)
    (h1 : x1 < b.x_min) (h2 : b.x_min ≤ x0) (h3 : EPSILON < |x1 - x0|) :
    horizontale_pruefung b x0 x1 s =
      if (b.x_min - x0) / (x1 - x0) < s.1
      then ((b.x_min - x0) / (x1 - x0), some Wand.links) else s := by
  have hb := bruchteil_in_intervall h1 h2
  unfold horizontale_pruefung
  rw [if_pos ⟨h1, h2⟩, if_pos h3]
  dsimp only
  by_cases hlt : (b.x_min - x0) / (x1 - x0) < s.1
  · rw [if_pos ⟨hb.1, hlt⟩, if_pos hlt]
  · rw [if_neg (fun hc => hlt hc.2), if_neg hlt]

theorem horizontale_rechts_spec (b : Box) (x0 x1 : ℝ) (s : ℝ × Option Wand)
    (hx : b.x_min ≤ b.x_max)
    (h1 : b.x_max < x1) (h2 : x0 ≤ b.x_max) (h3 : EPSILON < |x1 - x0|) :
    horizontale_pruefung b x0 x1 s =
      if (b.x_max - x0) / (x1 - x0) < s.1
      then ((b.x_max - x0) / (x1 - x0), some Wand.rechts) else s := by
  have hb := bruchteil_in_intervall' h1 h2
  unfold horizontale_pruefung
  rw [if_neg (by rintro ⟨hc, -⟩; linarith), if_pos ⟨h1, h2⟩, if_pos h3]
  dsimp only
  by_cases hlt : (b.x_max - x0) / (x1 - x0) < s.1
  · rw [if_pos ⟨hb.1, hlt⟩, if_pos hlt]
  · rw [if_neg (fun hc => hlt hc.2), if_neg hlt]

theorem horizontale_keine_spec (b : Box) (x0 x1 : ℝ) (s : ℝ × Option Wand)
    (hL : ¬(x1 < b.x_min ∧ b.x_min ≤ x0 ∧ EPSILON < |x1 - x0|))
    (hR : ¬(b.x_max < x1 ∧ x0 ≤ b.x_max ∧ EPSILON < |x1 - x0|)) :
    horizontale_pruefung b x0 x1 s = s := by
  unfold horizontale_pruefung
  by_cases h1 : x1 < b.x_min ∧ b.x_min ≤ x0
  · rw [if_pos h1]
    by_cases h2 : EPSILON < |x1 - x0|
    · exact absurd ⟨h1.1, h1.2, h2⟩ hL
    · rw [if_neg h2]
  · rw [if_neg h1]
    by_cases h3 : b.x_max < x1 ∧ x0 ≤ b.x_max
    · rw [if_pos h3]
      by_cases h4 : EPSILON < |x1 - x0|
      · exact absurd ⟨h3.1, h3.2, h4⟩ hR
      · rw [if_neg h4]
    · rw [if_neg h3]

theorem vertikale_unten_spec (b : Box) (y0 y1 : ℝ) (s : ℝ × Option Wand)
    (h1 : y1 < b.y_min) (h2 : b.y_min ≤ y0) (h3 : EPSILON < |y1 - y0|) :
    vertikale_pruefung b y0 y1 s =
      if (b.y_min - y0) / (y1 - y0) < s.1
      then ((b.y_min - y0) / (y1 - y0), some Wand.unten) else s := by
  have hb := bruchteil_in_intervall h1 h2
  unfold vertikale_pruefung
  rw [if_pos ⟨h1, h2⟩, if_pos h3]
  dsimp only
  by_cases hlt : (b.y_min - y0) / (y1 - y0) < s.1
  · rw [if_pos ⟨hb.1, hlt⟩, if_pos hlt]
  · rw [if_neg (fun hc => hlt hc.2), if_neg hlt]

theorem vertikale_oben_spec (b : Box) (y0 y1 : ℝ) (s : ℝ × Option Wand)
    (hy : b.y_min ≤ b.y_max)
    (h1 : b.y_max < y1) (h2 : y0 ≤ b.y_max) (h3 : EPSILON < |y1 - y0|) :
    vertikale_pruefung b y0 y1 s =
      if (b.y_max - y0) / (y1 - y0) < s.1
      then ((b.y_max - y0) / (y1 - y0), some Wand.oben) else s := by
  have hb := bruchteil_in_intervall' h1 h2
  unfold vertikale_pruefung
  rw [if_neg (by rintro ⟨hc, -⟩; linarith), if_pos ⟨h1, h2⟩, if_pos h3]
  dsimp only
  by_cases hlt : (b.y_max - y0) / (y1 - y0) < s.1
  · rw [if_pos ⟨hb.1, hlt⟩, if_pos hlt]
  · rw [if_neg (fun hc => hlt hc.2), if_neg hlt]

theorem vertikale_keine_spec (b : Box) (y0 y1 : ℝ) (s : ℝ × Option Wand)
    (hU : ¬(y1 < b.y_min ∧ b.y_min ≤ y0 ∧ EPSILON < |y1 - y0|))
    (hO : ¬(b.y_max < y1 ∧ y0 ≤ b.y_max ∧ EPSILON < |y1 - y0|)) :
    vertikale_pruefung b y0 y1 s = s := by
  unfold vertikale_pruefung
  by_cases h1 : y1 < b.y_min ∧ b.y_min ≤ y0
  · rw [if_pos h1]
    by_cases h2 : EPSILON < |y1 - y0|
    · exact absurd ⟨h1.1, h1.2, h2⟩ hU
    · rw [if_neg h2]
  · rw [if_neg h1]
    by_cases h3 : b.y_max < y1 ∧ y0 ≤ b.y_max
    · rw [if_pos h3]
      by_cases h4 : EPSILON < |y1 - y0|
      · exact absurd ⟨h3.1, h3.2, h4⟩ hO
      · rw [if_neg h4]
    · rw [if_neg h3]

/-- Packaging step for C7: once the scan value is computed, the conclusion
follows from the crossing of the chosen wall and its minimality. -/
theorem scan_abschluss (b : Box) (x0 y0 x1 y1 : ℝ) (w : Wand)
    (hw : wandkreuzung b x0 y0 x1 y1 w)
    (hmin : ∀ w', wandkreuzung b x0 y0 x1 y1 w' →
      wand_bruchteil b x0 y0 x1 y1 w ≤ wand_bruchteil b x0 y0 x1 y1 w')
    (heq : finde_kollision b x0 y0 x1 y1 = (wand_bruchteil b x0 y0 x1 y1 w, some w)) :
    ∃ w₀, (finde_kollision b x0 y0 x1 y1).2 = some w₀ ∧
      wandkreuzung b x0 y0 x1 y1 w₀ ∧
      (finde_kollision b x0 y0 x1 y1).1 = wand_bruchteil b x0 y0 x1 y1 w₀ ∧
      0 ≤ (finde_kollision b x0 y0 x1 y1).1 ∧
      (finde_kollision b x0 y0 x1 y1).1 < 1 ∧
      ∀ w', wandkreuzung b x0 y0 x1 y1 w' →
        (finde_kollision b x0 y0 x1 y1).1 ≤ wand_bruchteil b x0 y0 x1 y1 w' := by
  have hb := wandkreuzung_bruchteil_schranken b x0 y0 x1 y1 w hw
  rw [heq]
  exact ⟨w, rfl, hw, rfl, hb.1, hb.2, hmin⟩

/-- **C7**: whenever at least one wall is crossed (start coordinate on the
legal side, end coordinate on the illegal side, coordinate change above the
noise threshold `EPSILON`), the scan selects a crossed wall whose
interpolation fraction is the minimum over all crossed walls, and that
fraction lies in `[0, 1)`. -/
theorem finde_kollision_waehlt_minimalen_bruchteil (b : Box) (x0 y0 x1 y1 : ℝ)
    (hx : b.x_min ≤ b.x_max) (hy : b.y_min ≤ b.y_max)
    (hcross : ∃ w, wandkreuzung b x0 y0 x1 y1 w) :
    ∃ w₀, (finde_kollision b x0 y0 x1 y1).2 = some w₀ ∧
      wandkreuzung b x0 y0 x1 y1 w₀ ∧
      (finde_kollision b x0 y0 x1 y1).1 = wand_bruchteil b x0 y0 x1 y1 w₀ ∧
      0 ≤ (finde_kollision b x0 y0 x1 y1).1 ∧
      (finde_kollision b x0 y0 x1 y1).1 < 1 ∧
      ∀ w', wandkreuzung b x0 y0 x1 y1 w' →
        (finde_kollision b x0 y0 x1 y1).1 ≤ wand_bruchteil b x0 y0 x1 y1 w' := by
  have etL : wand_bruchteil b x0 y0 x1 y1 Wand.links = (b.x_min - x0) / (x1 - x0) := rfl
  have etR : wand_bruchteil b x0 y0 x1 y1 Wand.rechts = (b.x_max - x0) / (x1 - x0) := rfl
  have etU : wand_bruchteil b x0 y0 x1 y1 Wand.unten = (b.y_min - y0) / (y1 - y0) := rfl
  have etO : wand_bruchteil b x0 y0 x1 y1 Wand.oben = (b.y_max - y0) / (y1 - y0) := rfl
  by_cases hL : wandkreuzung b x0 y0 x1 y1 Wand.links
  · have hR : ¬ wandkreuzung b x0 y0 x1 y1 Wand.rechts := by
      intro hc
      have := hc.1
      have := hL.1
      linarith
    have hhor : horizontale_pruefung b x0 x1 (1, none) =
        ((b.x_min - x0) / (x1 - x0), some Wand.links) := by
      rw [horizontale_links_spec b x0 x1 _ hL.1 hL.2.1 hL.2.2]
      exact if_pos (bruchteil_in_intervall hL.1 hL.2.1).2
    by_cases hU : wandkreuzung b x0 y0 x1 y1 Wand.unten
    · have hO : ¬ wandkreuzung b x0 y0 x1 y1 Wand.oben := by
        intro hc
        have := hc.1
        have := hU.1
        linarith
      by_cases hlt : (b.y_min - y0) / (y1 - y0) < (b.x_min - x0) / (x1 - x0)
      · have hfin : finde_kollision b x0 y0 x1 y1 =
            ((b.y_min - y0) / (y1 - y0), some Wand.unten) := by
          unfold finde_kollision
          rw [hhor, vertikale_unten_spec b y0 y1 _ hU.1 hU.2.1 hU.2.2]
          exact if_pos hlt
        refine scan_abschluss b x0 y0 x1 y1 Wand.unten hU ?_ (by rw [hfin, etU])
        intro w' hw'
        cases w'
        · rw [etU, etL]; exact hlt.le
        · exact absurd hw' hR
        · exact le_refl _
        · exact absurd hw' hO
      · have hfin : finde_kollision b x0 y0 x1 y1 =
            ((b.x_min - x0) / (x1 - x0), some Wand.links) := by
          unfold finde_kollision
          rw [hhor, vertikale_unten_spec b y0 y1 _ hU.1 hU.2.1 hU.2.2]
          exact if_neg hlt
        refine scan_abschluss b x0 y0 x1 y1 Wand.links hL ?_ (by rw [hfin, etL])
        intro w' hw'
        cases w'
        · exact le_refl _
        · exact absurd hw' hR
        · rw [etL, etU]; exact not_lt.mp hlt
        · exact absurd hw' hO
    · by_cases hOc : wandkreuzung b x0 y0 x1 y1 Wand.oben
      · by_cases hlt : (b.y_max - y0) / (y1 - y0) < (b.x_min - x0) / (x1 - x0)
        · have hfin : finde_kollision b x0 y0 x1 y1 =
              ((b.y_max - y0) / (y1 - y0), some Wand.oben) := by
            unfold finde_kollision
            rw [hhor, vertikale_oben_spec b y0 y1 _ hy hOc.1 hOc.2.1 hOc.2.2]
            exact if_pos hlt
          refine scan_abschluss b x0 y0 x1 y1 Wand.oben hOc ?_ (by rw [hfin, etO])
          intro w' hw'
          cases w'
          · rw [etO, etL]; exact hlt.le
          · exact absurd hw' hR
          · exact absurd hw' hU
          · exact le_refl _
        · have hfin : finde_kollision b x0 y0 x1 y1 =
              ((b.x_min - x0) / (x1 - x0), some Wand.links) := by
            unfold finde_kollision
            rw [hhor, vertikale_oben_spec b y0 y1 _ hy hOc.1 hOc.2.1 hOc.2.2]
            exact if_neg hlt
          refine scan_abschluss b x0 y0 x1 y1 Wand.links hL ?_ (by rw [hfin, etL])
          intro w' hw'
          cases w'
          · exact le_refl _
          · exact absurd hw' hR
          · exact absurd hw' hU
          · rw [etL, etO]; exact not_lt.mp hlt
      · have hfin : finde_kollision b x0 y0 x1 y1 =
            ((b.x_min - x0) / (x1 - x0), some Wand.links) := by
          unfold finde_kollision
          rw [hhor, vertikale_keine_spec b y0 y1 _ hU hOc]
        refine scan_abschluss b x0 y0 x1 y1 Wand.links hL ?_ (by rw [hfin, etL])
        intro w' hw'
        cases w'
        · exact le_refl _
        · exact absurd hw' hR
        · exact absurd hw' hU
        · exact absurd hw' hOc
  · by_cases hRc : wandkreuzung b x0 y0 x1 y1 Wand.rechts
    · have hhor : horizontale_pruefung b x0 x1 (1, none) =
          ((b.x_max - x0) / (x1 - x0), some Wand.rechts) := by
        rw [horizontale_rechts_spec b x0 x1 _ hx hRc.1 hRc.2.1 hRc.2.2]
        exact if_pos (bruchteil_in_intervall' hRc.1 hRc.2.1).2
      by_cases hU : wandkreuzung b x0 y0 x1 y1 Wand.unten
      · have hO : ¬ wandkreuzung b x0 y0 x1 y1 Wand.oben := by
          intro hc
          have := hc.1
          have := hU.1
          linarith
        by_cases hlt : (b.y_min - y0) / (y1 - y0) < (b.x_max - x0) / (x1 - x0)
        · have hfin : finde_kollision b x0 y0 x1 y1 =
              ((b.y_min - y0) / (y1 - y0), some Wand.unten) := by
            unfold finde_kollision
            rw [hhor, vertikale_unten_spec b y0 y1 _ hU.1 hU.2.1 hU.2.2]
            exact if_pos hlt
          refine scan_abschluss b x0 y0 x1 y1 Wand.unten hU ?_ (by rw [hfin, etU])
          intro w' hw'
          cases w'
          · exact absurd hw' hL
          · rw [etU, etR]; exact hlt.le
          · exact le_refl _
          · exact absurd hw' hO
        · have hfin : finde_kollision b x0 y0 x1 y1 =
              ((b.x_max - x0) / (x1 - x0), some Wand.rechts) := by
            unfold finde_kollision
            rw [hhor, vertikale_unten_spec b y0 y1 _ hU.1 hU.2.1 hU.2.2]
            exact if_neg hlt
          refine scan_abschluss b x0 y0 x1 y1 Wand.rechts hRc ?_ (by rw [hfin, etR])
          intro w' hw'
          cases w'
          · exact absurd hw' hL
          · exact le_refl _
          · rw [etR, etU]; exact not_lt.mp hlt
          · exact absurd hw' hO
      · by_cases hOc : wandkreuzung b x0 y0 x1 y1 Wand.oben
        · by_cases hlt : (b.y_max - y0) / (y1 - y0) < (b.x_max - x0) / (x1 - x0)
          · have hfin : finde_kollision b x0 y0 x1 y1 =
                ((b.y_max - y0) / (y1 - y0), some Wand.oben) := by
              unfold finde_kollision
              rw [hhor, vertikale_oben_spec b y0 y1 _ hy hOc.1 hOc.2.1 hOc.2.2]
              exact if_pos hlt
            refine scan_abschluss b x0 y0 x1 y1 Wand.oben hOc ?_ (by rw [hfin, etO])
            intro w' hw'
            cases w'
            · exact absurd hw' hL
            · rw [etO, etR]; exact hlt.le
            · exact absurd hw' hU
            · exact le_refl _
          · have hfin : finde_kollision b x0 y0 x1 y1 =
                ((b.x_max - x0) / (x1 - x0), some Wand.rechts) := by
              unfold finde_kollision
              rw [hhor, vertikale_oben_spec b y0 y1 _ hy hOc.1 hOc.2.1 hOc.2.2]
              exact if_neg hlt
            refine scan_abschluss b x0 y0 x1 y1 Wand.rechts hRc ?_ (by rw [hfin, etR])
            intro w' hw'
            cases w'
            · exact absurd hw' hL
            · exact le_refl _
            · exact absurd hw' hU
            · rw [etR, etO]; exact not_lt.mp hlt
        · have hfin : finde_kollision b x0 y0 x1 y1 =
              ((b.x_max - x0) / (x1 - x0), some Wand.rechts) := by
            unfold finde_kollision
            rw [hhor, vertikale_keine_spec b y0 y1 _ hU hOc]
          refine scan_abschluss b x0 y0 x1 y1 Wand.rechts hRc ?_ (by rw [hfin, etR])
          intro w' hw'
          cases w'
          · exact absurd hw' hL
          · exact le_refl _
          · exact absurd hw' hU
          · exact absurd hw' hOc
    · have hhor : horizontale_pruefung b x0 x1 (1, none) = (1, none) :=
        horizontale_keine_spec b x0 x1 _ hL hRc
      by_cases hU : wandkreuzung b x0 y0 x1 y1 Wand.unten
      · have hO : ¬ wandkreuzung b x0 y0 x1 y1 Wand.oben := by
          intro hc
          have := hc.1
          have := hU.1
          linarith
        have hfin : finde_kollision b x0 y0 x1 y1 =
            ((b.y_min - y0) / (y1 - y0), some Wand.unten) := by
          unfold finde_kollision
          rw [hhor, vertikale_unten_spec b y0 y1 _ hU.1 hU.2.1 hU.2.2]
          exact if_pos (bruchteil_in_intervall hU.1 hU.2.1).2
        refine scan_abschluss b x0 y0 x1 y1 Wand.unten hU ?_ (by rw [hfin, etU])
        intro w' hw'
        cases w'
        · exact absurd hw' hL
        · exact absurd hw' hRc
        · exact le_refl _
        · exact absurd hw' hO
      · by_cases hOc : wandkreuzung b x0 y0 x1 y1 Wand.oben
        · have hfin : finde_kollision b x0 y0 x1 y1 =
              ((b.y_max - y0) / (y1 - y0), some Wand.oben) := by
            unfold finde_kollision
            rw [hhor, vertikale_oben_spec b y0 y1 _ hy hOc.1 hOc.2.1 hOc.2.2]
            exact if_pos (bruchteil_in_intervall' hOc.1 hOc.2.1).2
          refine scan_abschluss b x0 y0 x1 y1 Wand.oben hOc ?_ (by rw [hfin, etO])
          intro w' hw'
          cases w'
          · exact absurd hw' hL
          · exact absurd hw' hRc
          · exact absurd hw' hU
          · exact le_refl _
        · obtain ⟨w, hw⟩ := hcross
          cases w
          · exact absurd hw hL
          · exact absurd hw hRc
          · exact absurd hw hU
          · exact absurd hw hOc

/-- Witness for C7 at a concrete right-wall crossing
(`[0,100]²`, start `(99,50)`, candidate end `(101,50)`). -/
theorem finde_kollision_minimal_zeuge :
    ∃ w₀, (finde_kollision ⟨0, 100, 0, 100, 0⟩ 99 50 101 50).2 = some w₀ ∧
      wandkreuzung ⟨0, 100, 0, 100, 0⟩ 99 50 101 50 w₀ ∧
      (finde_kollision ⟨0, 100, 0, 100, 0⟩ 99 50 101 50).1 =
        wand_bruchteil ⟨0, 100, 0, 100, 0⟩ 99 50 101 50 w₀ ∧
      0 ≤ (finde_kollision ⟨0, 100, 0, 100, 0⟩ 99 50 101 50).1 ∧
      (finde_kollision ⟨0, 100, 0, 100, 0⟩ 99 50 101 50).1 < 1 ∧
      ∀ w', wandkreuzung ⟨0, 100, 0, 100, 0⟩ 99 50 101 50 w' →
        (finde_kollision ⟨0, 100, 0, 100, 0⟩ 99 50 101 50).1 ≤
          wand_bruchteil ⟨0, 100, 0, 100, 0⟩ 99 50 101 50 w' :=
  finde_kollision_waehlt_minimalen_bruchteil _ 99 50 101 50 (by norm_num) (by norm_num)
    ⟨Wand.rechts,
      ⟨by norm_num, by norm_num, by
        rw [show |(101 : ℝ) - 99| = 2 from by rw [abs_of_pos] <;> norm_num]
        norm_num [EPSILON]⟩⟩

/-! ### The collision handler (C1, C6, C10) -/

theorem EPSILON_pos : (0 : ℝ) < EPSILON := by norm_num [EPSILON]

theorem horizontale_pruefung_faelle (b : Box) (x0 x1 : ℝ) (s : ℝ × Option Wand) :
    horizontale_pruefung b x0 x1 s = s ∨ (horizontale_pruefung b x0 x1 s).2.isSome := by
  unfold horizontale_pruefung
  by_cases h1 : x1 < b.x_min ∧ b.x_min ≤ x0
  · rw [if_pos h1]
    by_cases h2 : EPSILON < |x1 - x0|
    · rw [if_pos h2]
      dsimp only
      by_cases h3 : 0 ≤ (b.x_min - x0) / (x1 - x0) ∧ (b.x_min - x0) / (x1 - x0) < s.1
      · rw [if_pos h3]; right; rfl
      · rw [if_neg h3]; left; rfl
    · rw [if_neg h2]; left; rfl
  · rw [if_neg h1]
    by_cases h4 : b.x_max < x1 ∧ x0 ≤ b.x_max
    · rw [if_pos h4]
      by_cases h5 : EPSILON < |x1 - x0|
      · rw [if_pos h5]
        dsimp only
        by_cases h6 : 0 ≤ (b.x_max - x0) / (x1 - x0) ∧ (b.x_max - x0) / (x1 - x0) < s.1
        · rw [if_pos h6]; right; rfl
        · rw [if_neg h6]; left; rfl
      · rw [if_neg h5]; left; rfl
    · rw [if_neg h4]; left; rfl

theorem vertikale_pruefung_faelle (b : Box) (y0 y1 : ℝ) (s : ℝ × Option Wand) :
    vertikale_pruefung b y0 y1 s = s ∨ (vertikale_pruefung b y0 y1 s).2.isSome := by
  unfold vertikale_pruefung
  by_cases h1 : y1 < b.y_min ∧ b.y_min ≤ y0
  · rw [if_pos h1]
    by_cases h2 : EPSILON < |y1 - y0|
    · rw [if_pos h2]
      dsimp only
      by_cases h3 : 0 ≤ (b.y_min - y0) / (y1 - y0) ∧ (b.y_min - y0) / (y1 - y0) < s.1
      · rw [if_pos h3]; right; rfl
      · rw [if_neg h3]; left; rfl
    · rw [if_neg h2]; left; rfl
  · rw [if_neg h1]
    by_cases h4 : b.y_max < y1 ∧ y0 ≤ b.y_max
    · rw [if_pos h4]
      by_cases h5 : EPSILON < |y1 - y0|
      · rw [if_pos h5]
        dsimp only
        by_cases h6 : 0 ≤ (b.y_max - y0) / (y1 - y0) ∧ (b.y_max - y0) / (y1 - y0) < s.1
        · rw [if_pos h6]; right; rfl
        · rw [if_neg h6]; left; rfl
      · rw [if_neg h5]; left; rfl
    · rw [if_neg h4]; left; rfl

/-- When the scan reports no wall, the collision fraction kept its initial
value `1.0` (so the remaining sub-interval is empty). -/
theorem finde_kollision_none_bruchteil (b : Box) (x0 y0 x1 y1 : ℝ)
    (h : (finde_kollision b x0 y0 x1 y1).2 = none) :
    (finde_kollision b x0 y0 x1 y1).1 = 1 := by
  rcases vertikale_pruefung_faelle b y0 y1 (horizontale_pruefung b x0 x1 (1, none)) with hv | hv
  · unfold finde_kollision at h ⊢
    rw [hv] at h ⊢
    rcases horizontale_pruefung_faelle b x0 x1 (1, none) with hh | hh
    · rw [hh]
    · rw [h] at hh
      simp at hh
  · unfold finde_kollision at h
    rw [h] at hv
    simp at hv

theorem kollisionsverarbeitung_grenzen (box : Box) (alle : List Teilchen) (idx : ℕ)
    (dt : ℝ) (u : Vec4) (scan : ℝ × Option Wand) :
    (kollisionsverarbeitung box alle idx dt u scan).box.x_min = box.x_min ∧
    (kollisionsverarbeitung box alle idx dt u scan).box.x_max = box.x_max ∧
    (kollisionsverarbeitung box alle idx dt u scan).box.y_min = box.y_min ∧
    (kollisionsverarbeitung box alle idx dt u scan).box.y_max = box.y_max := by
  unfold kollisionsverarbeitung
  dsimp only
  split <;> exact ⟨rfl, rfl, rfl, rfl⟩

theorem kollisionsverarbeitung_zaehler_monoton (box : Box) (alle : List Teilchen) (idx : ℕ)
    (dt : ℝ) (u : Vec4) (scan : ℝ × Option Wand) :
    box.gesamt_kollisionen ≤
      (kollisionsverarbeitung box alle idx dt u scan).box.gesamt_kollisionen := by
  unfold kollisionsverarbeitung
  dsimp only
  split
  · exact Nat.le_succ _
  · exact le_refl _

/-- A positive remaining sub-interval means a wall was actually struck, so
the box's cumulative collision counter was incremented by exactly one. -/
theorem kollisionsverarbeitung_zaehler_inkrement (box : Box) (alle : List Teilchen)
    (idx : ℕ) (dt : ℝ) (u : Vec4) (scan : ℝ × Option Wand)
    (hscan : scan.2 = none → scan.1 = 1)
    (h : EPSILON < (kollisionsverarbeitung box alle idx dt u scan).dt_nach) :
    (kollisionsverarbeitung box alle idx dt u scan).box.gesamt_kollisionen =
      box.gesamt_kollisionen + 1 := by
  have hd : (kollisionsverarbeitung box alle idx dt u scan).dt_nach = dt - scan.1 * dt := rfl
  cases hw : scan.2 with
  | none =>
    exfalso
    rw [hd, hscan hw, one_mul, sub_self] at h
    exact absurd h (not_lt.mpr EPSILON_pos.le)
  | some w =>
    unfold kollisionsverarbeitung
    dsimp only
    rw [hw]
    rfl

/-- Step 7 in isolation: clamping onto ordered bounds puts any point inside. -/
theorem klippe_faelle (box : Box) (f0 : Vec4)
    (hx : box.x_min ≤ box.x_max) (hy : box.y_min ≤ box.y_max) :
    box.ist_innerhalb
      ((if box.ist_innerhalb (f0.x, f0.y) then f0
        else ⟨klippe f0.x box.x_min box.x_max, klippe f0.y box.y_min box.y_max,
          f0.vx, f0.vy⟩).x,
       (if box.ist_innerhalb (f0.x, f0.y) then f0
        else ⟨klippe f0.x box.x_min box.x_max, klippe f0.y box.y_min box.y_max,
          f0.vx, f0.vy⟩).y) := by
  split
  · next h => exact h
  · exact ⟨le_min (le_max_right _ _) hx, min_le_right _ _,
      le_min (le_max_right _ _) hy, min_le_right _ _⟩

theorem kollisionsverarbeitung_finaler_innerhalb (box : Box) (alle : List Teilchen)
    (idx : ℕ) (dt : ℝ) (u : Vec4) (scan : ℝ × Option Wand)
    (hx : box.x_min ≤ box.x_max) (hy : box.y_min ≤ box.y_max) :
    box.ist_innerhalb ((kollisionsverarbeitung box alle idx dt u scan).finaler.x,
      (kollisionsverarbeitung box alle idx dt u scan).finaler.y) := by
  unfold kollisionsverarbeitung
  dsimp only
  exact klippe_faelle box _ hx hy

/-- Core of C1 by induction on the fuel: whatever the collision handler
returns lies inside the (bounds-ordered) box. -/
theorem behandle_fuel_innerhalb (fuel : ℕ) :
    ∀ box alle idx dt r, box.x_min ≤ box.x_max → box.y_min ≤ box.y_max →
      behandle_fuel fuel box alle idx dt = some r →
      box.ist_innerhalb (r.2.2.x, r.2.2.y) := by
  induction fuel with
  | zero =>
    intro box alle idx dt r hx hy h
    simp [behandle_fuel] at h
  | succ fuel ih =>
    intro box alle idx dt r hx hy h
    simp only [behandle_fuel] at h
    split at h
    · next hin =>
      injection h with h2
      subst h2
      exact hin
    · next hout =>
      split at h
      · split at h
        · next hguard =>
          split at h
          · exact absurd h (by simp)
          · next r' heq =>
            injection h with h2
            subst h2
            have hg := kollisionsverarbeitung_grenzen box
              (rk4_schritt_einzeln alle idx dt).1 idx dt
              ((alle.getD idx default).zustand)
              (finde_kollision box ((alle.getD idx default).zustand).x
                ((alle.getD idx default).zustand).y
                (((alle.getD idx default).zustand) + (rk4_schritt_einzeln alle idx dt).2).x
                (((alle.getD idx default).zustand) + (rk4_schritt_einzeln alle idx dt).2).y)
            have hb := ih _ _ idx _ r'
              (by rw [hg.1, hg.2.1]; exact hx) (by rw [hg.2.2.1, hg.2.2.2]; exact hy) heq
            exact ⟨hg.1 ▸ hb.1, hg.2.1 ▸ hb.2.1, hg.2.2.1 ▸ hb.2.2.1, hg.2.2.2 ▸ hb.2.2.2⟩
        · injection h with h2
          subst h2
          exact kollisionsverarbeitung_finaler_innerhalb _ _ _ _ _ _ hx hy
      · injection h with h2
        subst h2
        exact kollisionsverarbeitung_finaler_innerhalb _ _ _ _ _ _ hx hy

/-- Core of C6 by induction on the fuel: fuel exceeding
`MAX_KOLLISIONS_ITERATIONEN - counter` is never exhausted, because every
secondary-collision recursion increments the counter and is guarded by
`counter < MAX_KOLLISIONS_ITERATIONEN`. -/
theorem behandle_fuel_isSome (fuel : ℕ) :
    ∀ box alle idx dt,
      MAX_KOLLISIONS_ITERATIONEN - box.gesamt_kollisionen < fuel →
      (behandle_fuel fuel box alle idx dt).isSome = true := by
  induction fuel with
  | zero =>
    intro box alle idx dt h
    omega
  | succ fuel ih =>
    intro box alle idx dt h
    simp only [behandle_fuel]
    set Z := kollisionsverarbeitung box (rk4_schritt_einzeln alle idx dt).1 idx dt
      (alle.getD idx default).zustand
      (finde_kollision box (alle.getD idx default).zustand.x
        (alle.getD idx default).zustand.y
        ((alle.getD idx default).zustand + (rk4_schritt_einzeln alle idx dt).2).x
        ((alle.getD idx default).zustand + (rk4_schritt_einzeln alle idx dt).2).y) with hZ
    split
    · rfl
    · split
      · split
        · next hguard =>
          have hguard1 := hguard.1
          rw [hZ] at hguard1
          have hinc := kollisionsverarbeitung_zaehler_inkrement _ _ _ _ _ _
            (finde_kollision_none_bruchteil _ _ _ _ _) hguard1
          rw [← hZ] at hinc
          have hlt := hguard.2
          rw [hinc] at hlt
          have hrec := ih Z.box (setze_zustand Z.alle idx Z.reflektiert) idx Z.dt_nach
            (by rw [hinc]; omega)
          split
          · next heq =>
            rw [heq] at hrec
            exact hrec
          · rfl
        · rfl
      · rfl

theorem rk4_einzeln_null (alle : List Teilchen) (idx : ℕ) :
    rk4_schritt_einzeln alle idx 0 = (alle, 0) := by
  unfold rk4_schritt_einzeln
  rw [if_pos (show |(0 : ℝ)| < 1e-15 by rw [abs_zero]; norm_num)]

/-- **C1**: for a well-formed box (ordered bounds), the state returned by the
collision handler always has its position inside the enclosure, bounds
inclusive: the no-collision branch is guarded by the containment check, the
collision branch clamps onto the bounds, and the secondary-collision
recursion returns a state of the same shape. -/
theorem behandle_bleibt_innerhalb (box : Box) (alle : List Teilchen) (idx : ℕ) (dt : ℝ)
    (r : Box × List Teilchen × Vec4)
    (hx : box.x_min ≤ box.x_max) (hy : box.y_min ≤ box.y_max)
    (h : behandle_wandkollision_exakt box alle idx dt = some r) :
    box.ist_innerhalb (r.2.2.x, r.2.2.y) :=
  behandle_fuel_innerhalb _ box alle idx dt r hx hy h

/-- The no-collision branch of the handler in isolation: when the candidate
end position is inside, the candidate end state is returned. -/
theorem behandle_fuel_keine_kollision (fuel : ℕ) (box : Box) (alle : List Teilchen)
    (idx : ℕ) (dt : ℝ)
    (h : box.ist_innerhalb
      (((alle.getD idx default).zustand + (rk4_schritt_einzeln alle idx dt).2).x,
       ((alle.getD idx default).zustand + (rk4_schritt_einzeln alle idx dt).2).y)) :
    behandle_fuel (fuel + 1) box alle idx dt =
      some (box, (rk4_schritt_einzeln alle idx dt).1,
        (alle.getD idx default).zustand + (rk4_schritt_einzeln alle idx dt).2) := by
  simp only [behandle_fuel]
  rw [if_pos h]

/-- Witness for C1: a resting particle at the centre of the `[0,100]²` box
with `dt = 0` is returned unchanged and inside. -/
theorem behandle_bleibt_innerhalb_zeuge :
    (⟨0, 100, 0, 100, 0⟩ : Box).ist_innerhalb
      (((⟨0, 100, 0, 100, 0⟩ : Box), [(⟨1, 0, ⟨50, 50, 0, 0⟩, 0⟩ : Teilchen)],
        (⟨50, 50, 0, 0⟩ : Vec4)).2.2.x,
       ((⟨0, 100, 0, 100, 0⟩ : Box), [(⟨1, 0, ⟨50, 50, 0, 0⟩, 0⟩ : Teilchen)],
        (⟨50, 50, 0, 0⟩ : Vec4)).2.2.y) :=
  behandle_bleibt_innerhalb ⟨0, 100, 0, 100, 0⟩
    [(⟨1, 0, ⟨50, 50, 0, 0⟩, 0⟩ : Teilchen)]
    0 0 _ (by norm_num) (by norm_num)
    (by
      have hcond : (⟨0, 100, 0, 100, 0⟩ : Box).ist_innerhalb
          ((([(⟨1, 0, ⟨50, 50, 0, 0⟩, 0⟩ : Teilchen)].getD 0 default).zustand +
            (rk4_schritt_einzeln [(⟨1, 0, ⟨50, 50, 0, 0⟩, 0⟩ : Teilchen)] 0 0).2).x,
           (([(⟨1, 0, ⟨50, 50, 0, 0⟩, 0⟩ : Teilchen)].getD 0 default).zustand +
            (rk4_schritt_einzeln [(⟨1, 0, ⟨50, 50, 0, 0⟩, 0⟩ : Teilchen)] 0 0).2).y) := by
        rw [rk4_einzeln_null]
        simp only [List.getD_cons_zero, Vec4.add_zero]
        exact ⟨by norm_num, by norm_num, by norm_num, by norm_num⟩
      rw [show behandle_wandkollision_exakt (⟨0, 100, 0, 100, 0⟩ : Box)
            [(⟨1, 0, ⟨50, 50, 0, 0⟩, 0⟩ : Teilchen)] 0 0 =
          behandle_fuel (MAX_KOLLISIONS_ITERATIONEN + 1) (⟨0, 100, 0, 100, 0⟩ : Box)
            [(⟨1, 0, ⟨50, 50, 0, 0⟩, 0⟩ : Teilchen)] 0 0 from rfl,
        behandle_fuel_keine_kollision _ _ _ _ _ hcond, rk4_einzeln_null]
      simp only [List.getD_cons_zero, Vec4.add_zero])

/-- **C6**: every call of the collision handler terminates within the
documented bound: the fuel `MAX_KOLLISIONS_ITERATIONEN + 1` (one initial
pass plus at most `MAX_KOLLISIONS_ITERATIONEN` secondary-collision
recursions) is never exhausted, because each recursion increments the box's
collision counter and is guarded by
`gesamt_kollisionen < MAX_KOLLISIONS_ITERATIONEN`; on a failed guard the
clamped state is returned instead of recursing. -/
theorem behandle_terminiert (box : Box) (alle : List Teilchen) (idx : ℕ) (dt : ℝ) :
    (behandle_wandkollision_exakt box alle idx dt).isSome = true :=
  behandle_fuel_isSome _ box alle idx dt (by omega)

/-- Every two positive fuels give the same result once the box has reached
the collision cap, because the recursion guard always fails. -/
theorem behandle_fuel_konstant_bei_limit (box : Box) (alle : List Teilchen) (idx : ℕ)
    (dt : ℝ) (h : MAX_KOLLISIONS_ITERATIONEN ≤ box.gesamt_kollisionen)
    (fuel fuel' : ℕ) :
    behandle_fuel (fuel + 1) box alle idx dt = behandle_fuel (fuel' + 1) box alle idx dt := by
  simp only [behandle_fuel]
  set Z := kollisionsverarbeitung box (rk4_schritt_einzeln alle idx dt).1 idx dt
    (alle.getD idx default).zustand
    (finde_kollision box (alle.getD idx default).zustand.x
      (alle.getD idx default).zustand.y
      ((alle.getD idx default).zustand + (rk4_schritt_einzeln alle idx dt).2).x
      ((alle.getD idx default).zustand + (rk4_schritt_einzeln alle idx dt).2).y) with hZ
  split
  · rfl
  · split
    · split
      · next hguard =>
        exfalso
        have hmono := kollisionsverarbeitung_zaehler_monoton box
          (rk4_schritt_einzeln alle idx dt).1 idx dt (alle.getD idx default).zustand
          (finde_kollision box (alle.getD idx default).zustand.x
            (alle.getD idx default).zustand.y
            ((alle.getD idx default).zustand + (rk4_schritt_einzeln alle idx dt).2).x
            ((alle.getD idx default).zustand + (rk4_schritt_einzeln alle idx dt).2).y)
        rw [← hZ] at hmono
        have hlt := hguard.2
        omega
      · rfl
    · rfl

/-- **C10**: the secondary-collision guard compares the box's cumulative
lifetime counter with the cap, so once the box has recorded
`MAX_KOLLISIONS_ITERATIONEN` wall collisions in total, no recursive
secondary-collision call is ever made again: the handler behaves exactly
like its recursion-free restriction (fuel `1`), still returns a result, and
the returned box keeps a counter at or above the cap (the counter never
decreases), so the same holds for every later call. -/
theorem behandle_bei_vollem_zaehler_keine_rekursion (box : Box) (alle : List Teilchen)
    (idx : ℕ) (dt : ℝ) (h : MAX_KOLLISIONS_ITERATIONEN ≤ box.gesamt_kollisionen) :
    behandle_wandkollision_exakt box alle idx dt = behandle_fuel 1 box alle idx dt ∧
    (behandle_fuel 1 box alle idx dt).isSome = true ∧
    (∀ r, behandle_wandkollision_exakt box alle idx dt = some r →
      MAX_KOLLISIONS_ITERATIONEN ≤ r.1.gesamt_kollisionen) := by
  have key : behandle_wandkollision_exakt box alle idx dt = behandle_fuel 1 box alle idx dt :=
    behandle_fuel_konstant_bei_limit box alle idx dt h MAX_KOLLISIONS_ITERATIONEN 0
  refine ⟨key, ?_, ?_⟩
  · rw [← key]
    exact behandle_terminiert box alle idx dt
  · intro r hr
    rw [key, show (1 : ℕ) = 0 + 1 from rfl] at hr
    simp only [behandle_fuel] at hr
    split at hr
    · injection hr with h2
      subst h2
      exact h
    · split at hr
      · split at hr
        · next hguard =>
          exfalso
          have hmono := kollisionsverarbeitung_zaehler_monoton box
            (rk4_schritt_einzeln alle idx dt).1 idx dt (alle.getD idx default).zustand
            (finde_kollision box (alle.getD idx default).zustand.x
              (alle.getD idx default).zustand.y
              ((alle.getD idx default).zustand + (rk4_schritt_einzeln alle idx dt).2).x
              ((alle.getD idx default).zustand + (rk4_schritt_einzeln alle idx dt).2).y)
          have hlt := hguard.2
          omega
        · injection hr with h2
          subst h2
          have hmono := kollisionsverarbeitung_zaehler_monoton box
            (rk4_schritt_einzeln alle idx dt).1 idx dt (alle.getD idx default).zustand
            (finde_kollision box (alle.getD idx default).zustand.x
              (alle.getD idx default).zustand.y
              ((alle.getD idx default).zustand + (rk4_schritt_einzeln alle idx dt).2).x
              ((alle.getD idx default).zustand + (rk4_schritt_einzeln alle idx dt).2).y)
          exact le_trans h hmono
      · injection hr with h2
        subst h2
        have hmono := kollisionsverarbeitung_zaehler_monoton box
          (rk4_schritt_einzeln alle idx dt).1 idx dt (alle.getD idx default).zustand
          (finde_kollision box (alle.getD idx default).zustand.x
            (alle.getD idx default).zustand.y
            ((alle.getD idx default).zustand + (rk4_schritt_einzeln alle idx dt).2).x
            ((alle.getD idx default).zustand + (rk4_schritt_einzeln alle idx dt).2).y)
        exact le_trans h hmono

/-- Witness for C10: a box whose counter already sits at the cap. -/
theorem behandle_bei_vollem_zaehler_zeuge :
    behandle_wandkollision_exakt ⟨0, 100, 0, 100, 10⟩
        [(⟨1, 0, ⟨50, 50, 0, 0⟩, 0⟩ : Teilchen)] 0 1 =
      behandle_fuel 1 ⟨0, 100, 0, 100, 10⟩
        [(⟨1, 0, ⟨50, 50, 0, 0⟩, 0⟩ : Teilchen)] 0 1 ∧
    (behandle_fuel 1 ⟨0, 100, 0, 100, 10⟩
        [(⟨1, 0, ⟨50, 50, 0, 0⟩, 0⟩ : Teilchen)] 0 1).isSome = true ∧
    (∀ r, behandle_wandkollision_exakt ⟨0, 100, 0, 100, 10⟩
        [(⟨1, 0, ⟨50, 50, 0, 0⟩, 0⟩ : Teilchen)] 0 1 = some r →
      MAX_KOLLISIONS_ITERATIONEN ≤ r.1.gesamt_kollisionen) :=
  behandle_bei_vollem_zaehler_keine_rekursion _ _ 0 1 (by decide)

/-! ### The force law at the soft-core radius (C4) -/

theorem MIN_ABSTAND_pos : (0 : ℝ) < MIN_ABSTAND := by norm_num [MIN_ABSTAND]

/-- The soft-core denominator at `r = MIN_ABSTAND`:
`(ε² + ε²)^1.5 = 2^1.5 · ε³`. -/
theorem softcore_nenner_bei_grenze :
    ((MIN_ABSTAND * MIN_ABSTAND + MIN_ABSTAND * MIN_ABSTAND : ℝ) ^ ((3 : ℝ) / 2)) =
      2 ^ ((3 : ℝ) / 2) * MIN_ABSTAND ^ 3 := by
  have hε := MIN_ABSTAND_pos
  rw [show (MIN_ABSTAND * MIN_ABSTAND + MIN_ABSTAND * MIN_ABSTAND : ℝ) =
    2 * MIN_ABSTAND ^ 2 by ring]
  rw [Real.mul_rpow (by norm_num) (by positivity)]
  congr 1
  rw [← Real.rpow_natCast MIN_ABSTAND 2, ← Real.rpow_mul hε.le]
  rw [show ((2 : ℕ) : ℝ) * ((3 : ℝ) / 2) = ((3 : ℕ) : ℝ) by norm_num]
  exact Real.rpow_natCast MIN_ABSTAND 3

/-- The soft-core branch magnitude at `r = MIN_ABSTAND` equals
`q1·q2 / (2^1.5 · ε²)`. -/
theorem softcore_wert_bei_grenze (q1 q2 : ℝ) :
    kraft_betrag_softcore q1 q2 MIN_ABSTAND =
      q1 * q2 / (2 ^ ((3 : ℝ) / 2) * MIN_ABSTAND ^ 2) := by
  unfold kraft_betrag_softcore
  rw [softcore_nenner_bei_grenze]
  have hε := MIN_ABSTAND_pos
  have hc : (0 : ℝ) < 2 ^ ((3 : ℝ) / 2) := by positivity
  field_simp
  ring

theorem softcore_stetig_bei_grenze (q1 q2 : ℝ) :
    ContinuousAt (fun r => kraft_betrag_softcore q1 q2 r) MIN_ABSTAND := by
  have hε := MIN_ABSTAND_pos
  unfold kraft_betrag_softcore
  apply ContinuousAt.div
  · fun_prop
  · exact ContinuousAt.rpow_const (by fun_prop)
      (Or.inl (show MIN_ABSTAND * MIN_ABSTAND + MIN_ABSTAND * MIN_ABSTAND ≠ 0 by positivity))
  · show ((MIN_ABSTAND * MIN_ABSTAND + MIN_ABSTAND * MIN_ABSTAND : ℝ) ^ ((3 : ℝ) / 2)) ≠ 0
    exact ne_of_gt (Real.rpow_pos_of_pos (by positivity) _)

/-- **C4 amended**: as `r` approaches the core radius from below, the
soft-core branch magnitude converges to `q1·q2 / (2^1.5 · ε_core²)`, which
for non-vanishing charges is *not* the inverse-square branch value
`q1·q2 / ε_core²`: the force magnitude jumps by the factor `2^1.5 = 2√2` at
`r = ε_core`. -/
theorem softcore_grenzwert_und_sprung (q1 q2 : ℝ) (h : q1 * q2 ≠ 0) :
    Filter.Tendsto (fun r => kraft_betrag_softcore q1 q2 r)
      (nhdsWithin MIN_ABSTAND (Set.Iio MIN_ABSTAND))
      (nhds (q1 * q2 / (2 ^ ((3 : ℝ) / 2) * MIN_ABSTAND ^ 2))) ∧
    q1 * q2 / (2 ^ ((3 : ℝ) / 2) * MIN_ABSTAND ^ 2) ≠
      kraft_betrag_normal q1 q2 MIN_ABSTAND := by
  have hε := MIN_ABSTAND_pos
  have hc1 : (1 : ℝ) < 2 ^ ((3 : ℝ) / 2) := by
    rw [show (1 : ℝ) = 2 ^ (0 : ℝ) from (Real.rpow_zero 2).symm]
    exact (Real.rpow_lt_rpow_left_iff (by norm_num)).mpr (by norm_num)
  constructor
  · have h2 : Filter.Tendsto (fun r => kraft_betrag_softcore q1 q2 r)
        (nhdsWithin MIN_ABSTAND (Set.Iio MIN_ABSTAND))
        (nhds (kraft_betrag_softcore q1 q2 MIN_ABSTAND)) :=
      (softcore_stetig_bei_grenze q1 q2).tendsto.mono_left nhdsWithin_le_nhds
    rwa [softcore_wert_bei_grenze q1 q2] at h2
  · rw [show kraft_betrag_normal q1 q2 MIN_ABSTAND = q1 * q2 / MIN_ABSTAND ^ 2 from rfl,
      ← sub_ne_zero]
    have hrw : q1 * q2 / (2 ^ ((3 : ℝ) / 2) * MIN_ABSTAND ^ 2) - q1 * q2 / MIN_ABSTAND ^ 2 =
        q1 * q2 * (1 - 2 ^ ((3 : ℝ) / 2)) / (2 ^ ((3 : ℝ) / 2) * MIN_ABSTAND ^ 2) := by
      field_simp
      ring
    rw [hrw]
    exact div_ne_zero (mul_ne_zero h (sub_ne_zero.mpr (ne_of_lt hc1))) (by positivity)

/-- **C4 counterexample**: the soft-core branch does *not* converge to the
inverse-square branch value at `r = ε_core` (unit charges): the limit from
below exists but equals `1/(2^1.5·ε²) ≠ 1/ε²`. -/
theorem softcore_sprung_gegenbeispiel :
    ¬ Filter.Tendsto (fun r => kraft_betrag_softcore 1 1 r)
        (nhdsWithin MIN_ABSTAND (Set.Iio MIN_ABSTAND))
        (nhds (kraft_betrag_normal 1 1 MIN_ABSTAND)) := by
  intro hcontra
  have hlim := (softcore_grenzwert_und_sprung 1 1 (by norm_num)).1
  exact (softcore_grenzwert_und_sprung 1 1 (by norm_num)).2
    (tendsto_nhds_unique hlim hcontra)

/-- Witness for the amended C4 at unit charges. -/
theorem softcore_grenzwert_zeuge :
    Filter.Tendsto (fun r => kraft_betrag_softcore 1 1 r)
      (nhdsWithin MIN_ABSTAND (Set.Iio MIN_ABSTAND))
      (nhds ((1 : ℝ) * 1 / (2 ^ ((3 : ℝ) / 2) * MIN_ABSTAND ^ 2))) ∧
    (1 : ℝ) * 1 / (2 ^ ((3 : ℝ) / 2) * MIN_ABSTAND ^ 2) ≠
      kraft_betrag_normal 1 1 MIN_ABSTAND :=
  softcore_grenzwert_und_sprung 1 1 (by norm_num)

end

end Datpro
